import Mathlib

/-!
Verification model of the transit data-acquisition core of
mcp-buses-coruna (src/server.ts): the upstream client fetchJson, the
normalizer (mapStop, parseLineInfo and their helpers), the interest
filter (filterInterestStops, applyInterestToStop, isInterestLine), the
catalog cache (loadStops / loadStopsInternal state machine) and the
arrivals assembler (getArrivals).  Definitions follow the TypeScript
source line by line; JavaScript strings are modelled through their
character lists, JSON numbers as exact rationals.
-/

namespace BusesCoruna

/-- A JSON value as produced by response.json().  An absent object field
(JS undefined) is collapsed into the null constructor: every use site in
the source (safeInt, safeFloat, asObject, asArray, the nullish-coalescing
operator) treats null and undefined identically. -/
inductive Json where
  | null
  | bool (b : Bool)
  | num (q : ℚ)
  | str (s : String)
  | arr (elems : List Json)
  | obj (fields : List (String × Json))

/-- isObject from server.ts: typeof object, not null, not an array. -/
def isObject : Json → Bool
  | .obj _ => true
  | _ => false

/-- Property access value[key]: the field of an object, null (standing for
JS undefined) when the key is absent or the value is not an object. -/
def jget : Json → String → Json
  | .obj fields, k =>
    (match fields.find? (fun p => p.1 == k) with
     | some p => p.2
     | none => .null)
  | _, _ => .null

/-- asObject from server.ts: isObject(value) ? value : null. -/
def asObject (j : Json) : Option Json := if isObject j then some j else none

/-- asArray from server.ts: Array.isArray(value) ? value : []. -/
def asArray : Json → List Json
  | .arr elems => elems
  | _ => []

/-- Optional chaining x?.k where x may already be null. -/
def optGet : Option Json → String → Json
  | none, _ => .null
  | some j, k => jget j k

/-- Numeric value of a decimal digit character. -/
def digitVal (c : Char) : Nat := c.toNat - '0'.toNat

/-- Decimal digits to a natural number, most significant digit first. -/
def digitsToNat (ds : List Char) : Nat := ds.foldl (fun acc c => acc * 10 + digitVal c) 0

/-- Number.parseInt(s, 10): skip leading whitespace, optional sign, then
the longest run of decimal digits; NaN (none) when that run is empty;
trailing junk is ignored. -/
def parseIntJS (s : String) : Option Int :=
  let cs := s.data.dropWhile Char.isWhitespace
  let signed : Bool × List Char :=
    match cs with
    | '-' :: rest => (true, rest)
    | '+' :: rest => (false, rest)
    | _ => (false, cs)
  let ds := signed.2.takeWhile Char.isDigit
  if ds.isEmpty then none
  else some (if signed.1 then -(digitsToNat ds : Int) else (digitsToNat ds : Int))

/-- Exponent part of parseFloat: e or E, an optional sign and digits; an
exponent marker with no digits contributes nothing. -/
def parseExpJS : List Char → Int
  | c :: rest =>
    if c = 'e' ∨ c = 'E' then
      match rest with
      | '-' :: ds => -(digitsToNat (ds.takeWhile Char.isDigit) : Int)
      | '+' :: ds => (digitsToNat (ds.takeWhile Char.isDigit) : Int)
      | ds => (digitsToNat (ds.takeWhile Char.isDigit) : Int)
    else 0
  | [] => 0

/-- Number.parseFloat: longest valid prefix of sign, digits, optional
point and fraction digits, optional exponent; NaN (none) when no digit
occurs.  Exact rational semantics; the Infinity literal is not modelled
and parses as NaN. -/
def parseFloatJS (s : String) : Option ℚ :=
  let cs := s.data.dropWhile Char.isWhitespace
  let signed : Bool × List Char :=
    match cs with
    | '-' :: rest => (true, rest)
    | '+' :: rest => (false, rest)
    | _ => (false, cs)
  let ip := signed.2.takeWhile Char.isDigit
  let r1 := signed.2.drop ip.length
  let fpr : List Char × List Char :=
    match r1 with
    | '.' :: rest => (rest.takeWhile Char.isDigit, rest.drop (rest.takeWhile Char.isDigit).length)
    | _ => ([], r1)
  if ip.isEmpty && fpr.1.isEmpty then none
  else
    let ex := parseExpJS fpr.2
    let mag : ℚ := ((digitsToNat (ip ++ fpr.1) : ℚ) / ((10 : ℚ) ^ fpr.1.length)) * (10 : ℚ) ^ ex
    some (if signed.1 then -mag else mag)

/-- Math.trunc on rationals: round toward zero. -/
def ratTrunc (q : ℚ) : Int := if q < 0 then q.ceil else q.floor

/-- safeInt from server.ts.  The Number.isFinite guard is vacuous here
because JSON.parse never produces NaN or an infinity. -/
def safeInt : Json → Option Int
  | .num q => some (ratTrunc q)
  | .str s => parseIntJS s
  | _ => none

/-- safeFloat from server.ts. -/
def safeFloat : Json → Option ℚ
  | .num q => some q
  | .str s => parseFloatJS s
  | _ => none

/-- String(v) for a non-array value.  Number-to-string is exact for
integral values, the only numbers the source ever stringifies. -/
def jsAtomToString : Json → String
  | .null => "null"
  | .bool b => if b then "true" else "false"
  | .num q => if q.den = 1 then toString q.num else toString q.num ++ "/" ++ toString q.den
  | .str s => s
  | .arr _ => ""
  | .obj _ => "[object Object]"

/-- String(v): array elements join with commas, null elements becoming
empty; nested structure inside an array is approximated by
jsAtomToString (the source never stringifies such values). -/
def jsToString : Json → String
  | .arr elems =>
    String.intercalate ","
      (elems.map (fun e => match e with | .null => "" | x => jsAtomToString x))
  | j => jsAtomToString j

/-- String.prototype.trim. -/
def jsTrim (s : String) : String :=
  String.mk (((s.data.dropWhile Char.isWhitespace).reverse.dropWhile Char.isWhitespace).reverse)

/-- String.prototype.toLowerCase. -/
def jsToLower (s : String) : String := String.mk (s.data.map Char.toLower)

/-- Whether the second list starts the first. -/
def leadsWith : List Char → List Char → Bool
  | [], _ => true
  | _ :: _, [] => false
  | a :: as, b :: bs => a == b && leadsWith as bs

/-- Occurrence of needle anywhere in hay. -/
def containsSeq (hay needle : List Char) : Bool :=
  match hay with
  | [] => leadsWith needle []
  | c :: t => leadsWith needle (c :: t) || containsSeq t needle

/-- String.prototype.includes. -/
def jsIncludes (hay needle : String) : Bool := containsSeq hay.data needle.data

/-- String.prototype.padStart(n, c). -/
def padStart (s : String) (n : Nat) (c : Char) : String :=
  if n ≤ s.data.length then s else String.mk (List.replicate (n - s.data.length) c ++ s.data)

/-- Whether a string starts with the # character. -/
def startsWithHash (s : String) : Bool :=
  match s.data with
  | '#' :: _ => true
  | _ => false

/-- formatColor from server.ts, applied to the raw color field value. -/
def formatColor : Json → Option String
  | .str rawColor =>
    if (jsTrim rawColor).data.length = 0 then none
    else
      let color := jsTrim rawColor
      if startsWithHash color then some color
      else some ("#" ++ padStart color 6 '0')
  | _ => none

/-- StopSummary from server.ts. -/
structure StopSummary where
  id : Int
  name : String
  latitude : ℚ
  longitude : ℚ
  lines : List Int
deriving DecidableEq, Repr

/-- LineMeta from server.ts. -/
structure LineMeta where
  name : String
  nameLower : String
  color : Option String
deriving DecidableEq, Repr

/-- The cacheExpiresAt timestamp: a finite epoch-milliseconds number or
Number.POSITIVE_INFINITY. -/
inductive Expiry where
  | fin (t : Int)
  | inf
deriving DecidableEq, Repr

/-- The comparison now < cacheExpiresAt. -/
def beforeExpiry (now : Int) : Expiry → Bool
  | .fin t => now < t
  | .inf => true

/-- The slice of TransitRuntimeConfig read by the core logic, with the
interest-name set precomputed as in the TransitService constructor. -/
structure Config where
  primaryStopId : Int
  interestLineNames : List String
  cacheTtlSeconds : Int
deriving DecidableEq, Repr

/-- new Set(config.interestLines.map(l trim toLowerCase).filter(Boolean)).
The Set is modelled as a list consulted only through has and an
is-empty test, for which duplicates are irrelevant. -/
def mkInterestLineNames (interestLines : List String) : List String :=
  (interestLines.map (fun l => jsToLower (jsTrim l))).filter (fun l => !(l == ""))

/-- The mutable fields of TransitService touched by the catalog cache. -/
structure ServiceState where
  stopsCache : Option (List StopSummary)
  cacheExpiresAt : Expiry
  linesInfo : List (Int × LineMeta)
  interestLineIds : List Int
deriving DecidableEq, Repr

/-- The field initializers of TransitService: no cache, expiry 0, empty
line map and interest set. -/
def initialState : ServiceState :=
  { stopsCache := none, cacheExpiresAt := .fin 0, linesInfo := [], interestLineIds := [] }

/-- Map.prototype.get on the insertion-ordered line map. -/
def mapGet (m : List (Int × LineMeta)) (k : Int) : Option LineMeta :=
  (m.find? (fun p => p.1 == k)).map (fun p => p.2)

/-- Map.prototype.set: overwrite in place when the key exists, append
otherwise. -/
def mapSet (m : List (Int × LineMeta)) (k : Int) (v : LineMeta) : List (Int × LineMeta) :=
  if m.any (fun p => p.1 == k) then m.map (fun p => if p.1 == k then (k, v) else p)
  else m ++ [(k, v)]

/-- Set.prototype.add on a list-modelled set. -/
def setAdd (s : List Int) (x : Int) : List Int := if s.contains x then s else s ++ [x]

/-- One iteration of the parseLineInfo loop over the raw line list. -/
def parseLineStep (names : List String) (acc : List (Int × LineMeta) × List Int)
    (lineRaw : Json) : List (Int × LineMeta) × List Int :=
  if isObject lineRaw then
    match safeInt (jget lineRaw "id") with
    | none => acc
    | some lineId =>
      let name := jsTrim (match jget lineRaw "lin_comer" with
        | .null => toString lineId
        | v => jsToString v)
      let normalizedName := jsToLower name
      let color := formatColor (jget lineRaw "color")
      let info := mapSet acc.1 lineId { name := name, nameLower := normalizedName, color := color }
      let ids :=
        if names.contains normalizedName || names.contains (jsToLower (toString lineId))
        then setAdd acc.2 lineId else acc.2
      (info, ids)
  else acc

/-- parseLineInfo from server.ts: the line-metadata map it returns and the
interest-id set it assigns to this.interestLineIds. -/
def parseLineInfo (names : List String) (linesRaw : List Json) :
    List (Int × LineMeta) × List Int :=
  linesRaw.foldl (parseLineStep names) ([], [])

/-- mapStop from server.ts. -/
def mapStop (rawStop : Json) : Option StopSummary :=
  if isObject rawStop then
    match safeInt (jget rawStop "id") with
    | none => none
    | some stopId =>
      some
        { id := stopId
          name := (match jget rawStop "nombre" with
            | .null => "Parada " ++ toString stopId
            | v => jsToString v)
          latitude := (safeFloat (jget rawStop "posy")).getD 0
          longitude := (safeFloat (jget rawStop "posx")).getD 0
          lines := (asArray (jget rawStop "enlaces")).filterMap safeInt }
  else none

/-- rawStops.map(mapStop).filter(item is not null). -/
def parseStops (rawStops : List Json) : List StopSummary := rawStops.filterMap mapStop

/-- placeholderStop from server.ts. -/
def placeholderStop (cfg : Config) : StopSummary :=
  { id := cfg.primaryStopId
    name := "Parada " ++ toString cfg.primaryStopId
    latitude := 0
    longitude := 0
    lines := [] }

/-- setCacheExpiry: now plus ttl seconds when ttl is positive, positive
infinity otherwise. -/
def setCacheExpiry (cfg : Config) (now : Int) : Expiry :=
  if cfg.cacheTtlSeconds > 0 then .fin (now + cfg.cacheTtlSeconds * 1000) else .inf

/-- Outcome of the underlying fetch and body decode, the only effectful
part of fetchJson: the abort raised by the timeout timer, any other
transport failure, or a response with its status and decoded body (none
when the body is not valid JSON). -/
inductive HttpOutcome where
  | timeoutAbort
  | transportError
  | response (status : Nat) (body : Option Json)

/-- fetchJson from server.ts as a function of the transport outcome,
failing with TransitServiceError messages.  response.ok is status in
[200, 300).  The timeout abort and every other non-TransitServiceError
failure (a transport error, a body that is not valid JSON) reach the
catch clause and are wrapped into transit_api_unavailable. -/
def fetchJson : HttpOutcome → Except String Json
  | .timeoutAbort => .error "transit_api_unavailable"
  | .transportError => .error "transit_api_unavailable"
  | .response status body =>
    if 200 ≤ status ∧ status < 300 then
      match body with
      | none => .error "transit_api_unavailable"
      | some b => if isObject b then .ok b else .error "transit_api_invalid_payload"
    else .error ("transit_api_error_" ++ toString status)

/-- The body of loadStopsInternal from the fetch onward: on success the
normalized catalog and a fresh expiry are swapped in; on failure an
existing cache entry is returned untouched, and with no previous entry
the placeholder entry is installed with a fresh expiry.  Every fetchJson
failure is a TransitServiceError, so the rethrow branch for foreign
errors is unreachable. -/
def loadStopsFetchResult (cfg : Config) (st : ServiceState) (tDone : Int)
    (http : HttpOutcome) : ServiceState × List StopSummary :=
  match fetchJson http with
  | .ok payload =>
    let iTranvias := asObject (jget payload "iTranvias")
    let actualizacion := asObject (optGet iTranvias "actualizacion")
    let rawStops := asArray (optGet actualizacion "paradas")
    let rawLines := asArray (optGet actualizacion "lineas")
    let parsed := parseLineInfo cfg.interestLineNames rawLines
    let stops := parseStops rawStops
    ({ stopsCache := some stops
       cacheExpiresAt := setCacheExpiry cfg tDone
       linesInfo := parsed.1
       interestLineIds := parsed.2 }, stops)
  | .error _ =>
    match st.stopsCache with
    | some c => (st, c)
    | none =>
      let ph := [placeholderStop cfg]
      ({ stopsCache := some ph
         cacheExpiresAt := setCacheExpiry cfg tDone
         linesInfo := []
         interestLineIds := [] }, ph)

/-- loadStopsInternal: the entry freshness check runs at tEntry, the
continuation after the fetch at tDone. -/
def loadStopsInternal (cfg : Config) (st : ServiceState) (tEntry tDone : Int)
    (force : Bool) (http : HttpOutcome) : ServiceState × List StopSummary :=
  match st.stopsCache with
  | some c =>
    if force = false ∧ beforeExpiry tEntry st.cacheExpiresAt = true then (st, c)
    else loadStopsFetchResult cfg st tDone http
  | none => loadStopsFetchResult cfg st tDone http

/-- applyInterestToStop from server.ts. -/
def applyInterestToStop (ids : List Int) (stop : StopSummary) : StopSummary :=
  if ids.isEmpty then { stop with lines := stop.lines }
  else { stop with lines := stop.lines.filter (fun lineId => ids.contains lineId) }

/-- Code-point comparison of character lists, modelling the es-locale
name comparison of the stop sort; the properties proved here depend only
on the sort being a permutation by some name order, not on the exact
collation. -/
def charListLe : List Char → List Char → Bool
  | [], _ => true
  | _ :: _, [] => false
  | a :: as, b :: bs => if a = b then charListLe as bs else decide (a < b)

/-- Order of the localeCompare stop sort. -/
def nameLe (a b : StopSummary) : Prop := charListLe a.name.data b.name.data = true

instance : DecidableRel nameLe := fun a b => by unfold nameLe; infer_instance

/-- The name-sorted copy [...stops].sort by localeCompare.
Array.prototype.sort is stable, and a stable sort by a non-strict total
comparator is insertion sort. -/
def sortByNameEs (stops : List StopSummary) : List StopSummary :=
  List.insertionSort nameLe stops

/-- filterInterestStops from server.ts. -/
def filterInterestStops (ids : List Int) (stops : List StopSummary) : List StopSummary :=
  if ids.isEmpty then sortByNameEs stops
  else sortByNameEs ((stops.map (applyInterestToStop ids)).filter (fun s => !s.lines.isEmpty))

/-- isInterestLine from server.ts. -/
def isInterestLine (names : List String) (ids : List Int) (lineId : Int)
    (lineMeta : Option LineMeta) : Bool :=
  if names.isEmpty then true
  else if ids.contains lineId then true
  else if names.contains (jsToLower (toString lineId)) then true
  else
    match lineMeta with
    | some m => names.contains m.nameLower
    | none => false

/-- getStop: find the id in the unfiltered cached list, then filter that
stop's line list. -/
def getStop (ids : List Int) (stops : List StopSummary) (stopId : Int) : Option StopSummary :=
  (stops.find? (fun item => item.id == stopId)).map (applyInterestToStop ids)

/-- searchStops: interest-filtered list, optional normalized name query,
limit. -/
def searchStops (ids : List Int) (stops : List StopSummary) (query : Option String)
    (limit : Nat) : List StopSummary :=
  let base := filterInterestStops ids stops
  match query.map (fun q => jsToLower (jsTrim q)) with
  | none => base.take limit
  | some nq =>
    if nq = "" then base.take limit
    else (base.filter (fun stop => jsIncludes (jsToLower stop.name) nq)).take limit

/-- Number.MAX_SAFE_INTEGER. -/
def MAX_SAFE_INTEGER : Int := 9007199254740991

/-- toSortEta from server.ts. -/
def toSortEta : Option Int → Int
  | some eta => eta
  | none => MAX_SAFE_INTEGER

/-- ArrivalBus from server.ts. -/
structure ArrivalBus where
  bus_id : Int
  eta_minutes : Option Int
  distance_meters : Option Int
  status : Option Int
  last_stop_id : Option Int
deriving DecidableEq, Repr

/-- LineArrivals from server.ts. -/
structure LineArrivals where
  line_id : Int
  line_name : Option String
  color_hex : Option String
  buses : List ArrivalBus
deriving DecidableEq, Repr

/-- ArrivalsResponse from server.ts. -/
structure ArrivalsResponse where
  stop_id : Int
  lines : List LineArrivals
deriving DecidableEq, Repr

/-- The order sorted by the bus comparator
toSortEta(a.eta_minutes) - toSortEta(b.eta_minutes). -/
def busLe (a b : ArrivalBus) : Prop := toSortEta a.eta_minutes ≤ toSortEta b.eta_minutes

instance : DecidableRel busLe := fun a b => by unfold busLe; infer_instance

instance : IsTotal ArrivalBus busLe := ⟨fun a b => Int.le_total _ _⟩

instance : IsTrans ArrivalBus busLe := ⟨fun _ _ _ => Int.le_trans⟩

/-- Sort key of a line in the arrivals sort: its first bus's eta,
MAX_SAFE_INTEGER for a line with no buses. -/
def lineSortKey (l : LineArrivals) : Int :=
  match l.buses with
  | [] => MAX_SAFE_INTEGER
  | b :: _ => toSortEta b.eta_minutes

/-- The order sorted by the line comparator. -/
def lineLe (a b : LineArrivals) : Prop := lineSortKey a ≤ lineSortKey b

instance : DecidableRel lineLe := fun a b => by unfold lineLe; infer_instance

instance : IsTotal LineArrivals lineLe := ⟨fun a b => Int.le_total _ _⟩

instance : IsTrans LineArrivals lineLe := ⟨fun _ _ _ => Int.le_trans⟩

/-- One bus record of the getArrivals loop. -/
def parseBus (rawBus : Json) : Option ArrivalBus :=
  if isObject rawBus then
    match safeInt (jget rawBus "bus") with
    | none => none
    | some busId =>
      some
        { bus_id := busId
          eta_minutes := safeInt (jget rawBus "tiempo")
          distance_meters := safeInt (jget rawBus "distancia")
          status := safeInt (jget rawBus "estado")
          last_stop_id := safeInt (jget rawBus "ult_parada") }
  else none

/-- One line entry of the getArrivals loop: parse the id, apply the
interest test, collect and sort the buses (Array.prototype.sort is
stable, modelled as insertion sort on the comparator's order). -/
def parseArrivalLine (names : List String) (ids : List Int)
    (linesInfo : List (Int × LineMeta)) (rawLine : Json) : Option LineArrivals :=
  if isObject rawLine then
    match safeInt (jget rawLine "linea") with
    | none => none
    | some lineId =>
      let lineMeta := mapGet linesInfo lineId
      if isInterestLine names ids lineId lineMeta then
        some
          { line_id := lineId
            line_name := lineMeta.map (fun m => m.name)
            color_hex := lineMeta.bind (fun m => m.color)
            buses := List.insertionSort busLe ((asArray (jget rawLine "buses")).filterMap parseBus) }
      else none
  else none

/-- getArrivals from server.ts, as a function of the service state after
the ensure-line-metadata load and of the fetched arrivals payload. -/
def getArrivals (names : List String) (ids : List Int)
    (linesInfo : List (Int × LineMeta)) (stopId : Int) (payload : Json) : ArrivalsResponse :=
  let busesRoot := asObject (jget payload "buses")
  let linesRaw := asArray (optGet busesRoot "lineas")
  { stop_id := stopId
    lines := List.insertionSort lineLe (linesRaw.filterMap (parseArrivalLine names ids linesInfo)) }

/-- Status of one catalog refresh, that is of one call to
loadStopsInternal whose promise was stored in loadingStopsPromise:
either its upstream fetch is still outstanding, or it has settled with
its stop-list result. -/
inductive RefreshStatus where
  | inFlight
  | settled (result : List StopSummary)
deriving DecidableEq, Repr

/-- How a loadStops caller finished: served fresh from the cache without
any refresh, as the winner that started refresh rid, or as a joiner that
awaited refresh rid. -/
inductive DoneVia where
  | cache
  | asOwner (rid : Nat)
  | asJoiner (rid : Nat)
deriving DecidableEq, Repr

/-- Control point of one loadStops caller between suspension points. -/
inductive TaskState where
  | ready (force : Bool)
  | joined (rid : Nat)
  | owner (rid : Nat)
  | done (via : DoneVia) (result : List StopSummary)
deriving DecidableEq, Repr

/-- Whole-system state for the single-flight analysis: the TransitService
fields, the loadingStopsPromise slot (marker, holding the id of the
refresh whose promise it stores), the book of refreshes, the caller
tasks and the wall clock. -/
structure SysState where
  svc : ServiceState
  marker : Option Nat
  refreshes : List (Nat × RefreshStatus)
  nextRid : Nat
  tasks : List TaskState
  time : Int
deriving DecidableEq, Repr

/-- Status lookup by refresh id. -/
def lookupR : List (Nat × RefreshStatus) → Nat → Option RefreshStatus
  | [], _ => none
  | p :: t, rid => if p.1 == rid then some p.2 else lookupR t rid

/-- Settle a refresh id in the book. -/
def setR : List (Nat × RefreshStatus) → Nat → RefreshStatus → List (Nat × RefreshStatus)
  | [], _, _ => []
  | p :: t, rid, v => (if p.1 == rid then (p.1, v) else p) :: setR t rid v

/-- Whether a refresh has its fetch outstanding. -/
def isInFlight : RefreshStatus → Bool
  | .inFlight => true
  | .settled _ => false

/-- Number of refreshes whose upstream fetch is outstanding. -/
def inFlightCount (rs : List (Nat × RefreshStatus)) : Nat :=
  (rs.filter (fun p => isInFlight p.2)).length

/-- The loadStops entry guard:
not force, and this.stopsCache, and now < this.cacheExpiresAt. -/
def servesFromCache (svc : ServiceState) (now : Int) (force : Bool) : Bool :=
  !force && svc.stopsCache.isSome && beforeExpiry now svc.cacheExpiresAt

/-- Interleaving semantics of concurrent loadStops callers.  JavaScript
is single threaded, so each step is one synchronous segment between
suspension points:
tick advances the wall clock;
serveCached: the entry guard passes and the caller returns the cache;
join: the guard fails and loadingStopsPromise is occupied, so the caller
returns that promise, joining refresh rid;
start: the guard fails and loadingStopsPromise is empty, so the caller
calls loadStopsInternal (whose own guard, evaluated at the same instant
on the same state, fails identically) and stores its promise; the fetch
of the fresh refresh id is now outstanding;
complete: the outstanding fetch finishes with some transport outcome and
the remainder of loadStopsInternal runs against the current state;
ownerResume: the winner resumes after its refresh settled and its
finally clause clears loadingStopsPromise;
joinerResume: a joiner resumes after the joined refresh settled. -/
inductive Step (cfg : Config) : SysState → SysState → Prop where
  | tick (s : SysState) (t : Int) :
      s.time ≤ t →
      Step cfg s { s with time := t }
  | serveCached (s : SysState) (i : Nat) (c : List StopSummary) (force : Bool) :
      s.tasks[i]? = some (.ready force) →
      force = false →
      s.svc.stopsCache = some c →
      beforeExpiry s.time s.svc.cacheExpiresAt = true →
      Step cfg s { s with tasks := s.tasks.set i (.done .cache c) }
  | join (s : SysState) (i : Nat) (force : Bool) (rid : Nat) :
      s.tasks[i]? = some (.ready force) →
      servesFromCache s.svc s.time force = false →
      s.marker = some rid →
      Step cfg s { s with tasks := s.tasks.set i (.joined rid) }
  | start (s : SysState) (i : Nat) (force : Bool) :
      s.tasks[i]? = some (.ready force) →
      servesFromCache s.svc s.time force = false →
      s.marker = none →
      Step cfg s
        { s with
          marker := some s.nextRid
          refreshes := s.refreshes ++ [(s.nextRid, .inFlight)]
          nextRid := s.nextRid + 1
          tasks := s.tasks.set i (.owner s.nextRid) }
  | complete (s : SysState) (rid : Nat) (http : HttpOutcome) :
      lookupR s.refreshes rid = some .inFlight →
      Step cfg s
        { s with
          svc := (loadStopsFetchResult cfg s.svc s.time http).1
          refreshes :=
            setR s.refreshes rid (.settled (loadStopsFetchResult cfg s.svc s.time http).2) }
  | ownerResume (s : SysState) (i rid : Nat) (res : List StopSummary) :
      s.tasks[i]? = some (.owner rid) →
      lookupR s.refreshes rid = some (.settled res) →
      Step cfg s { s with marker := none, tasks := s.tasks.set i (.done (.asOwner rid) res) }
  | joinerResume (s : SysState) (i rid : Nat) (res : List StopSummary) :
      s.tasks[i]? = some (.joined rid) →
      lookupR s.refreshes rid = some (.settled res) →
      Step cfg s { s with tasks := s.tasks.set i (.done (.asJoiner rid) res) }

/-- Initial configuration: the quiescent point where the promise slot is
empty, no refresh is in the books and every caller is about to enter
loadStops. -/
def InitSys (svc0 : ServiceState) (forces : List Bool) (t0 : Int) : SysState :=
  { svc := svc0, marker := none, refreshes := [], nextRid := 0,
    tasks := forces.map .ready, time := t0 }

/-- Reflexive-transitive closure of Step. -/
inductive Reach (cfg : Config) : SysState → SysState → Prop where
  | refl (s : SysState) : Reach cfg s s
  | tail {s t u : SysState} : Reach cfg s t → Step cfg t u → Reach cfg s u

/-- Inductive invariant of the single-flight protocol. -/
structure Inv (s : SysState) : Prop where
  flightMarker : ∀ p ∈ s.refreshes, isInFlight p.2 = true → s.marker = some p.1
  ridBound : ∀ p ∈ s.refreshes, p.1 < s.nextRid
  ridNodup : (s.refreshes.map Prod.fst).Nodup
  ownerMarker : ∀ (i rid : Nat), s.tasks[i]? = some (TaskState.owner rid) → s.marker = some rid
  ownerUnique : ∀ (i j ridI ridJ : Nat), s.tasks[i]? = some (TaskState.owner ridI) →
    s.tasks[j]? = some (TaskState.owner ridJ) → i = j
  ownerRidBound : ∀ (i rid : Nat), s.tasks[i]? = some (TaskState.owner rid) → rid < s.nextRid
  doneOwner : ∀ (i rid : Nat) (res : List StopSummary),
    s.tasks[i]? = some (TaskState.done (DoneVia.asOwner rid) res) →
    s.marker ≠ some rid ∧ rid < s.nextRid
  doneResult : ∀ (i rid : Nat) (res : List StopSummary),
    (s.tasks[i]? = some (TaskState.done (DoneVia.asOwner rid) res) ∨
      s.tasks[i]? = some (TaskState.done (DoneVia.asJoiner rid) res)) →
    lookupR s.refreshes rid = some (RefreshStatus.settled res)

/-- The default runtime configuration: primary stop 42, interest tokens
3, 3A, 12, 14 (normalized by the constructor), TTL 0 (forever). -/
def defaultCfg : Config :=
  { primaryStopId := 42
    interestLineNames := mkInterestLineNames ["3", "3A", "12", "14"]
    cacheTtlSeconds := 0 }

/-- Two concurrent callers at the initial service state. -/
def sfInit : SysState := InitSys initialState [false, false] 0

/-- After the first caller started a refresh. -/
def sfStarted : SysState :=
  { sfInit with
    marker := some sfInit.nextRid
    refreshes := sfInit.refreshes ++ [(sfInit.nextRid, RefreshStatus.inFlight)]
    nextRid := sfInit.nextRid + 1
    tasks := sfInit.tasks.set 0 (TaskState.owner sfInit.nextRid) }

/-- After the second caller joined the in-flight refresh. -/
def sfJoinedState : SysState :=
  { sfStarted with tasks := sfStarted.tasks.set 1 (TaskState.joined 0) }

/-- The same configuration with a negative TTL. -/
def negativeTtlCfg : Config :=
  { primaryStopId := 42
    interestLineNames := mkInterestLineNames ["3", "3A", "12", "14"]
    cacheTtlSeconds := -5 }

/-- A concrete cached stop. -/
def stopW : StopSummary :=
  { id := 42, name := "Parada 42", latitude := 0, longitude := 0, lines := [3, 12] }

/-- A concrete state with an expired cache entry. -/
def cachedStateW : ServiceState :=
  { stopsCache := some [stopW]
    cacheExpiresAt := .fin 4000
    linesInfo := [(3, { name := "3", nameLower := "3", color := none })]
    interestLineIds := [3] }

/-- A raw stop whose nombre field is a number. -/
def numericNameStop : Json := Json.obj [("id", Json.num 1), ("nombre", Json.num 7)]

/-- Line metadata used only to keep the line map nonempty in examples. -/
def lineMetaW : LineMeta := { name := "L", nameLower := "l", color := none }

/-- An arrivals payload whose first line has no buses and whose second
line has one bus with a null eta. -/
def noBusesFirstPayload : Json :=
  Json.obj [("buses", Json.obj [("lineas", Json.arr
    [ Json.obj [("linea", Json.num 7), ("buses", Json.arr [])],
      Json.obj [("linea", Json.num 3),
        ("buses", Json.arr [Json.obj [("bus", Json.num 1)]])] ])])]

/-- The arrivals line of the spec example: bus etas 5, null, 1, 3. -/
def etaExampleLineJson : Json :=
  Json.obj [("linea", Json.num 3), ("buses", Json.arr
    [ Json.obj [("bus", Json.num 1), ("tiempo", Json.num 5)],
      Json.obj [("bus", Json.num 2)],
      Json.obj [("bus", Json.num 3), ("tiempo", Json.num 1)],
      Json.obj [("bus", Json.num 4), ("tiempo", Json.num 3)] ])]

/-- A stop reachable only through line 2. -/
def stopNoInterest : StopSummary :=
  { id := 9, name := "Plaza de Pontevedra", latitude := 0, longitude := 0, lines := [2] }

theorem lookupR_append_left {rs rs' : List (Nat × RefreshStatus)} {rid : Nat}
    {v : RefreshStatus} (h : lookupR rs rid = some v) :
    lookupR (rs ++ rs') rid = some v := by
  induction rs with
  | nil => simp [lookupR] at h
  | cons a t ih =>
    by_cases ha : (a.1 == rid) = true
    · simp [lookupR, ha] at h ⊢
      exact h
    · simp [lookupR, ha] at h ⊢
      exact ih h

theorem lookupR_setR_ne {rs : List (Nat × RefreshStatus)} {rid rid' : Nat}
    {v : RefreshStatus} (h : rid ≠ rid') :
    lookupR (setR rs rid' v) rid = lookupR rs rid := by
  induction rs with
  | nil => rfl
  | cons a t ih =>
    by_cases ha : (a.1 == rid') = true
    · have hkey : a.1 = rid' := by simpa using ha
      have hne : (a.1 == rid) = false := by simp [hkey]; exact fun he => h he.symm
      simp [setR, lookupR, ha, hne, ih]
    · simp only [setR, ha, if_false, Bool.false_eq_true]
      simp [lookupR, ih]

theorem keys_setR (rs : List (Nat × RefreshStatus)) (rid : Nat) (v : RefreshStatus) :
    (setR rs rid v).map Prod.fst = rs.map Prod.fst := by
  induction rs with
  | nil => rfl
  | cons a t ih =>
    by_cases ha : (a.1 == rid) = true <;> simp [setR, ha, ih]

theorem mem_setR {rs : List (Nat × RefreshStatus)} {rid : Nat} {v : RefreshStatus}
    {p : Nat × RefreshStatus} (h : p ∈ setR rs rid v) : p.2 = v ∨ p ∈ rs := by
  induction rs with
  | nil => simp [setR] at h
  | cons a t ih =>
    by_cases ha : (a.1 == rid) = true
    · simp only [setR, ha, if_true, List.mem_cons] at h
      rcases h with h | h
      · left
        rw [h]
      · rcases ih h with h2 | h2
        · exact Or.inl h2
        · exact Or.inr (List.mem_cons_of_mem _ h2)
    · simp only [setR, ha, if_false, Bool.false_eq_true, List.mem_cons] at h
      rcases h with h | h
      · exact Or.inr (by rw [h]; exact List.mem_cons_self _ _)
      · rcases ih h with h2 | h2
        · exact Or.inl h2
        · exact Or.inr (List.mem_cons_of_mem _ h2)

theorem lookupR_eq_of_mem {rs : List (Nat × RefreshStatus)} {rid : Nat} {v : RefreshStatus}
    (hnd : (rs.map Prod.fst).Nodup) (hm : (rid, v) ∈ rs) : lookupR rs rid = some v := by
  induction rs with
  | nil => simp at hm
  | cons a t ih =>
    have hnd' : a.1 ∉ t.map Prod.fst ∧ (t.map Prod.fst).Nodup := by
      simpa [List.nodup_cons] using hnd
    rcases List.mem_cons.mp hm with h | h
    · rw [← h]
      simp [lookupR]
    · have hkey : a.1 ≠ rid := by
        intro he
        exact hnd'.1 (he ▸ List.mem_map.mpr ⟨(rid, v), h, rfl⟩)
      simp only [lookupR, beq_iff_eq, hkey, if_false]
      exact ih hnd'.2 h

theorem getElem?_set_cases {α : Type} {l : List α} {i j : Nat} {a x : α}
    (h : (l.set i a)[j]? = some x) : (i = j ∧ x = a) ∨ (i ≠ j ∧ l[j]? = some x) := by
  rw [List.getElem?_set] at h
  by_cases hij : i = j
  · rw [if_pos hij] at h
    by_cases hlen : i < l.length
    · rw [if_pos hlen] at h
      exact Or.inl ⟨hij, (Option.some.inj h).symm⟩
    · rw [if_neg hlen] at h
      simp at h
  · rw [if_neg hij] at h
    exact Or.inr ⟨hij, h⟩

theorem tasks_set_preserved {l : List TaskState} {i j : Nat} {a x : TaskState}
    (h : (l.set i a)[j]? = some x) (hne : x ≠ a) : l[j]? = some x := by
  rcases getElem?_set_cases h with ⟨_, hx⟩ | ⟨_, hold⟩
  · exact absurd hx hne
  · exact hold

theorem initTasks_cases {forces : List Bool} {i : Nat} {ts : TaskState}
    (h : (forces.map TaskState.ready)[i]? = some ts) : ∃ f, ts = TaskState.ready f := by
  rw [List.getElem?_map] at h
  cases hf : forces[i]? with
  | none => rw [hf] at h; simp at h
  | some f =>
    rw [hf] at h
    exact ⟨f, (Option.some.inj h).symm⟩

theorem inv_init (svc0 : ServiceState) (forces : List Bool) (t0 : Int) :
    Inv (InitSys svc0 forces t0) := by
  refine ⟨?_, ?_, ?_, ?_, ?_, ?_, ?_, ?_⟩
  · intro p hp
    simp [InitSys] at hp
  · intro p hp
    simp [InitSys] at hp
  · simp [InitSys]
  · intro i rid h
    rcases initTasks_cases h with ⟨f, hf⟩
    cases hf
  · intro i j ridI ridJ hi hj
    rcases initTasks_cases hi with ⟨f, hf⟩
    cases hf
  · intro i rid h
    rcases initTasks_cases h with ⟨f, hf⟩
    cases hf
  · intro i rid res h
    rcases initTasks_cases h with ⟨f, hf⟩
    cases hf
  · intro i rid res h
    rcases h with h | h <;>
      (rcases initTasks_cases h with ⟨f, hf⟩; cases hf)

theorem inv_step {cfg : Config} {s u : SysState} (hs : Step cfg s u) (hi : Inv s) : Inv u := by
  cases hs with
  | tick t ht =>
    exact ⟨hi.flightMarker, hi.ridBound, hi.ridNodup, hi.ownerMarker, hi.ownerUnique,
      hi.ownerRidBound, hi.doneOwner, hi.doneResult⟩
  | serveCached i c force h1 h2 h3 h4 =>
    refine ⟨hi.flightMarker, hi.ridBound, hi.ridNodup, ?_, ?_, ?_, ?_, ?_⟩
    · intro j rid h
      exact hi.ownerMarker j rid (tasks_set_preserved h (by simp))
    · intro j k ridJ ridK hj hk
      exact hi.ownerUnique j k ridJ ridK (tasks_set_preserved hj (by simp))
        (tasks_set_preserved hk (by simp))
    · intro j rid h
      exact hi.ownerRidBound j rid (tasks_set_preserved h (by simp))
    · intro j rid res h
      exact hi.doneOwner j rid res (tasks_set_preserved h (by simp))
    · intro j rid res h
      rcases h with h | h
      · exact hi.doneResult j rid res (Or.inl (tasks_set_preserved h (by simp)))
      · exact hi.doneResult j rid res (Or.inr (tasks_set_preserved h (by simp)))
  | join i force rid h1 h2 h3 =>
    refine ⟨hi.flightMarker, hi.ridBound, hi.ridNodup, ?_, ?_, ?_, ?_, ?_⟩
    · intro j rid' h
      exact hi.ownerMarker j rid' (tasks_set_preserved h (by simp))
    · intro j k ridJ ridK hj hk
      exact hi.ownerUnique j k ridJ ridK (tasks_set_preserved hj (by simp))
        (tasks_set_preserved hk (by simp))
    · intro j rid' h
      exact hi.ownerRidBound j rid' (tasks_set_preserved h (by simp))
    · intro j rid' res h
      exact hi.doneOwner j rid' res (tasks_set_preserved h (by simp))
    · intro j rid' res h
      rcases h with h | h
      · exact hi.doneResult j rid' res (Or.inl (tasks_set_preserved h (by simp)))
      · exact hi.doneResult j rid' res (Or.inr (tasks_set_preserved h (by simp)))
  | start i force h1 h2 h3 =>
    refine ⟨?_, ?_, ?_, ?_, ?_, ?_, ?_, ?_⟩
    · intro p hp hin
      rcases List.mem_append.mp hp with hp | hp
      · have hm := hi.flightMarker p hp hin
        rw [h3] at hm
        exact Option.noConfusion hm
      · have hp' : p = (s.nextRid, RefreshStatus.inFlight) := by simpa using hp
        rw [hp']
    · intro p hp
      rcases List.mem_append.mp hp with hp | hp
      · exact Nat.lt_succ_of_lt (hi.ridBound p hp)
      · have hp' : p = (s.nextRid, RefreshStatus.inFlight) := by simpa using hp
        rw [hp']
        exact Nat.lt_succ_self _
    · rw [List.map_append]
      refine List.Nodup.append hi.ridNodup (List.nodup_singleton _) ?_
      intro a ha hb
      rcases List.mem_map.mp ha with ⟨p, hp, rfl⟩
      have hb' : p.1 = s.nextRid := by simpa using hb
      exact Nat.ne_of_lt (hi.ridBound p hp) hb'
    · intro j rid h
      rcases getElem?_set_cases h with ⟨hij, hx⟩ | ⟨hij, hold⟩
      · have : rid = s.nextRid := by
          cases hx
          rfl
        rw [this]
      · have hm := hi.ownerMarker j rid hold
        rw [h3] at hm
        exact Option.noConfusion hm
    · intro j k ridJ ridK hj hk
      rcases getElem?_set_cases hj with ⟨hij, _⟩ | ⟨hij, holdJ⟩
      · rcases getElem?_set_cases hk with ⟨hik, _⟩ | ⟨hik, holdK⟩
        · rw [← hij, ← hik]
        · have hm := hi.ownerMarker k ridK holdK
          rw [h3] at hm
          exact Option.noConfusion hm
      · have hm := hi.ownerMarker j ridJ holdJ
        rw [h3] at hm
        exact Option.noConfusion hm
    · intro j rid h
      rcases getElem?_set_cases h with ⟨hij, hx⟩ | ⟨hij, hold⟩
      · have : rid = s.nextRid := by
          cases hx
          rfl
        rw [this]
        exact Nat.lt_succ_self _
      · exact Nat.lt_succ_of_lt (hi.ownerRidBound j rid hold)
    · intro j rid res h
      have hold := tasks_set_preserved h (by simp)
      rcases hi.doneOwner j rid res hold with ⟨_, hb⟩
      constructor
      · intro he
        have : s.nextRid = rid := by simpa using he
        exact Nat.ne_of_lt hb this.symm
      · exact Nat.lt_succ_of_lt hb
    · intro j rid res h
      rcases h with h | h
      · exact lookupR_append_left
          (hi.doneResult j rid res (Or.inl (tasks_set_preserved h (by simp))))
      · exact lookupR_append_left
          (hi.doneResult j rid res (Or.inr (tasks_set_preserved h (by simp))))
  | complete rid http h1 =>
    refine ⟨?_, ?_, ?_, hi.ownerMarker, hi.ownerUnique, hi.ownerRidBound, hi.doneOwner, ?_⟩
    · intro p hp hin
      rcases mem_setR hp with h2 | h2
      · rw [h2] at hin
        simp [isInFlight] at hin
      · exact hi.flightMarker p h2 hin
    · intro p hp
      have hk : p.1 ∈ (setR s.refreshes rid
          (RefreshStatus.settled (loadStopsFetchResult cfg s.svc s.time http).2)).map Prod.fst :=
        List.mem_map_of_mem _ hp
      rw [keys_setR] at hk
      rcases List.mem_map.mp hk with ⟨q, hq, he⟩
      rw [← he]
      exact hi.ridBound q hq
    · rw [keys_setR]
      exact hi.ridNodup
    · intro j rid' res h
      have hl := hi.doneResult j rid' res h
      have hne : rid' ≠ rid := by
        intro he
        rw [he, h1] at hl
        exact RefreshStatus.noConfusion (Option.some.inj hl)
      rw [lookupR_setR_ne hne]
      exact hl
  | ownerResume i rid res h1 h2 =>
    refine ⟨?_, hi.ridBound, hi.ridNodup, ?_, ?_, ?_, ?_, ?_⟩
    · intro p hp hin
      have hm := hi.flightMarker p hp hin
      have hm' := hi.ownerMarker i rid h1
      have hpk : p.1 = rid := by
        rw [hm'] at hm
        exact (Option.some.inj hm).symm
      have hpm : (rid, p.2) ∈ s.refreshes := by
        rw [← hpk]
        exact hp
      have := lookupR_eq_of_mem hi.ridNodup hpm
      rw [h2] at this
      have h3 := Option.some.inj this
      rw [← h3] at hin
      simp [isInFlight] at hin
    · intro j rid' h
      rcases getElem?_set_cases h with ⟨_, hx⟩ | ⟨hij, hold⟩
      · exact absurd hx (by simp)
      · exact absurd (hi.ownerUnique j i rid' rid hold h1).symm hij
    · intro j k ridJ ridK hj hk
      have holdJ := tasks_set_preserved hj (by simp)
      have holdK := tasks_set_preserved hk (by simp)
      exact hi.ownerUnique j k ridJ ridK holdJ holdK
    · intro j rid' h
      exact hi.ownerRidBound j rid' (tasks_set_preserved h (by simp))
    · intro j rid' res' h
      rcases getElem?_set_cases h with ⟨_, hx⟩ | ⟨hij, hold⟩
      · have hr : rid' = rid ∧ res' = res := by
          cases hx
          exact ⟨rfl, rfl⟩
        refine ⟨by simp, ?_⟩
        rw [hr.1]
        exact hi.ownerRidBound i rid h1
      · rcases hi.doneOwner j rid' res' hold with ⟨_, hb⟩
        exact ⟨by simp, hb⟩
    · intro j rid' res' h
      rcases h with h | h
      · rcases getElem?_set_cases h with ⟨_, hx⟩ | ⟨hij, hold⟩
        · have hr : rid' = rid ∧ res' = res := by
            cases hx
            exact ⟨rfl, rfl⟩
          rw [hr.1, hr.2]
          exact h2
        · exact hi.doneResult j rid' res' (Or.inl hold)
      · rcases getElem?_set_cases h with ⟨_, hx⟩ | ⟨hij, hold⟩
        · exact absurd hx (by simp)
        · exact hi.doneResult j rid' res' (Or.inr hold)
  | joinerResume i rid res h1 h2 =>
    refine ⟨hi.flightMarker, hi.ridBound, hi.ridNodup, ?_, ?_, ?_, ?_, ?_⟩
    · intro j rid' h
      exact hi.ownerMarker j rid' (tasks_set_preserved h (by simp))
    · intro j k ridJ ridK hj hk
      exact hi.ownerUnique j k ridJ ridK (tasks_set_preserved hj (by simp))
        (tasks_set_preserved hk (by simp))
    · intro j rid' h
      exact hi.ownerRidBound j rid' (tasks_set_preserved h (by simp))
    · intro j rid' res' h
      rcases getElem?_set_cases h with ⟨_, hx⟩ | ⟨hij, hold⟩
      · exact absurd hx (by simp)
      · exact hi.doneOwner j rid' res' hold
    · intro j rid' res' h
      rcases h with h | h
      · rcases getElem?_set_cases h with ⟨_, hx⟩ | ⟨hij, hold⟩
        · exact absurd hx (by simp)
        · exact hi.doneResult j rid' res' (Or.inl hold)
      · rcases getElem?_set_cases h with ⟨_, hx⟩ | ⟨hij, hold⟩
        · have hr : rid' = rid ∧ res' = res := by
            cases hx
            exact ⟨rfl, rfl⟩
          rw [hr.1, hr.2]
          exact h2
        · exact hi.doneResult j rid' res' (Or.inr hold)

theorem inv_reach {cfg : Config} {svc0 : ServiceState} {forces : List Bool} {t0 : Int}
    {s : SysState} (h : Reach cfg (InitSys svc0 forces t0) s) : Inv s := by
  induction h with
  | refl => exact inv_init svc0 forces t0
  | tail hr hs ih => exact inv_step hs ih

theorem length_le_one_of_nodup_const {l : List Nat} (hn : l.Nodup) (m : Nat)
    (hall : ∀ x ∈ l, x = m) : l.length ≤ 1 := by
  match l, hn, hall with
  | [], _, _ => simp
  | [a], _, _ => simp
  | a :: b :: t, hn, hall =>
    exfalso
    have ha : a = m := hall a (by simp)
    have hb : b = m := hall b (by simp)
    have : a ∉ b :: t := (List.nodup_cons.mp hn).1
    exact this (by rw [ha, hb]; exact List.mem_cons_self _ _)

theorem inFlightCount_le_one {s : SysState} (hi : Inv s) : inFlightCount s.refreshes ≤ 1 := by
  unfold inFlightCount
  cases hm : s.marker with
  | none =>
    have hnil : s.refreshes.filter (fun p => isInFlight p.2) = [] := by
      rw [List.filter_eq_nil_iff]
      intro p hp hin
      have := hi.flightMarker p hp hin
      rw [hm] at this
      exact Option.noConfusion this
    simp [hnil]
  | some m =>
    have hsub : ((s.refreshes.filter (fun p => isInFlight p.2)).map Prod.fst).Sublist
        (s.refreshes.map Prod.fst) := (List.filter_sublist _).map _
    have hnd := hsub.nodup hi.ridNodup
    have hall : ∀ x ∈ (s.refreshes.filter (fun p => isInFlight p.2)).map Prod.fst, x = m := by
      intro x hx
      rcases List.mem_map.mp hx with ⟨p, hp, rfl⟩
      rcases List.mem_filter.mp hp with ⟨hpm, hpf⟩
      have := hi.flightMarker p hpm hpf
      rw [hm] at this
      exact (Option.some.inj this).symm
    have := length_le_one_of_nodup_const hnd m hall
    simpa using this

/-- C3: in every state reachable from a quiescent point by any
interleaving of concurrent loadStops callers, at most one upstream
catalog fetch is outstanding; a caller that finished as a joiner of
refresh rid received exactly that refresh's settled result; and once the
winning caller of refresh rid has finished, the in-flight marker no
longer refers to rid, so a later expiry can start a new refresh. -/
theorem c3_single_flight (cfg : Config) (svc0 : ServiceState) (forces : List Bool)
    (t0 : Int) (s : SysState) (h : Reach cfg (InitSys svc0 forces t0) s) :
    inFlightCount s.refreshes ≤ 1 ∧
    (∀ (i rid : Nat) (res : List StopSummary),
        s.tasks[i]? = some (TaskState.done (DoneVia.asJoiner rid) res) →
        lookupR s.refreshes rid = some (RefreshStatus.settled res)) ∧
    (∀ (i rid : Nat) (res : List StopSummary),
        s.tasks[i]? = some (TaskState.done (DoneVia.asOwner rid) res) →
        s.marker ≠ some rid) := by
  have hi := inv_reach h
  exact ⟨inFlightCount_le_one hi,
    fun i rid res hk => hi.doneResult i rid res (Or.inr hk),
    fun i rid res hk => (hi.doneOwner i rid res hk).1⟩

theorem sfReach : Reach defaultCfg sfInit sfJoinedState :=
  Reach.tail
    (Reach.tail (Reach.refl sfInit)
      (Step.start sfInit 0 false rfl rfl rfl : Step defaultCfg sfInit sfStarted))
    (Step.join sfStarted 1 false 0 rfl rfl rfl : Step defaultCfg sfStarted sfJoinedState)

/-- C3 witness: concrete run with two callers, the second joining the
first one's refresh; the invariant evaluates to one outstanding fetch. -/
theorem c3_single_flight_witness : inFlightCount sfJoinedState.refreshes ≤ 1 :=
  (c3_single_flight defaultCfg initialState [false, false] 0 sfJoinedState sfReach).1

/-- C1: the claim requires the placeholder entry installed by a failed
first load to carry a finite, in-the-future expiresAt even when
cacheTtlSeconds is 0 or negative.  The code disagrees: setCacheExpiry is
shared by the success and placeholder paths and yields positive infinity
whenever ttl is not positive, so with the default ttl 0 the placeholder
entry is cached forever and the upstream fetch is never retried. -/
theorem c1_placeholder_infinite_expiry :
    (loadStopsInternal defaultCfg initialState 1000 2000 false
        HttpOutcome.transportError).1.cacheExpiresAt = Expiry.inf ∧
    (loadStopsInternal defaultCfg initialState 1000 2000 false
        HttpOutcome.transportError).1.stopsCache =
      some [placeholderStop defaultCfg] ∧
    (loadStopsInternal negativeTtlCfg initialState 1000 2000 false
        HttpOutcome.transportError).1.cacheExpiresAt = Expiry.inf ∧
    beforeExpiry 999999999 Expiry.inf = true :=
  ⟨rfl, rfl, rfl, rfl⟩

/-- C2: whenever a cached stop list exists, a refresh attempt whose fetch
fails returns exactly the cached list and leaves the whole cache entry
(stop list, line map, interest set, expiresAt) unmodified, so the next
access past the unchanged expiry retries. -/
theorem c2_failed_refresh_keeps_cache (cfg : Config) (st : ServiceState)
    (tEntry tDone : Int) (force : Bool) (http : HttpOutcome) (c : List StopSummary)
    (msg : String) (hc : st.stopsCache = some c) (hf : fetchJson http = Except.error msg) :
    loadStopsInternal cfg st tEntry tDone force http = (st, c) := by
  unfold loadStopsInternal
  rw [hc]
  show (if force = false ∧ beforeExpiry tEntry st.cacheExpiresAt = true then (st, c)
    else loadStopsFetchResult cfg st tDone http) = (st, c)
  by_cases hfr : force = false ∧ beforeExpiry tEntry st.cacheExpiresAt = true
  · rw [if_pos hfr]
  · rw [if_neg hfr]
    simp [loadStopsFetchResult, hf, hc]

/-- C2 witness: expired entry, timed-out refresh, cache served as-is. -/
theorem c2_failed_refresh_keeps_cache_witness :
    loadStopsInternal defaultCfg cachedStateW 5000 6000 false HttpOutcome.timeoutAbort
      = (cachedStateW, [stopW]) :=
  c2_failed_refresh_keeps_cache defaultCfg cachedStateW 5000 6000 false
    HttpOutcome.timeoutAbort [stopW] "transit_api_unavailable" rfl rfl

/-- C4: when no load has ever succeeded (empty initial state) and the
fetch fails, the cache becomes exactly the placeholder entry with empty
line map and empty interest set, and the stop query returns exactly the
one placeholder stop: the configured primary id, synthetic name, zero
coordinates, no lines. -/
theorem c4_first_load_failure_placeholder (cfg : Config) (tEntry tDone : Int)
    (force : Bool) (http : HttpOutcome) (msg : String) (limit : Nat)
    (hf : fetchJson http = Except.error msg) (hl : 1 ≤ limit) :
    loadStopsInternal cfg initialState tEntry tDone force http =
      ({ stopsCache := some [placeholderStop cfg]
         cacheExpiresAt := setCacheExpiry cfg tDone
         linesInfo := []
         interestLineIds := [] }, [placeholderStop cfg]) ∧
    searchStops [] [placeholderStop cfg] none limit = [placeholderStop cfg] ∧
    (placeholderStop cfg).id = cfg.primaryStopId ∧
    (placeholderStop cfg).name = "Parada " ++ toString cfg.primaryStopId ∧
    (placeholderStop cfg).latitude = 0 ∧
    (placeholderStop cfg).longitude = 0 ∧
    (placeholderStop cfg).lines = [] := by
  refine ⟨?_, ?_, rfl, rfl, rfl, rfl, rfl⟩
  · simp [loadStopsInternal, loadStopsFetchResult, hf, initialState]
  · show List.take limit (filterInterestStops [] [placeholderStop cfg]) = [placeholderStop cfg]
    have hbase : filterInterestStops [] [placeholderStop cfg] = [placeholderStop cfg] := rfl
    rw [hbase]
    cases limit with
    | zero => omega
    | succ n => simp

/-- C4 witness: failed first load with the default configuration. -/
theorem c4_first_load_failure_placeholder_witness :
    searchStops [] [placeholderStop defaultCfg] none 50 = [placeholderStop defaultCfg] :=
  (c4_first_load_failure_placeholder defaultCfg 1000 2000 false HttpOutcome.transportError
    "transit_api_unavailable" 50 rfl (by decide)).2.1

/-- C5 counterexample: exceeding the timeout aborts the fetch, but the
AbortError is not a TransitServiceError, so the catch clause wraps it
into the very same transit_api_unavailable error as any other transport
failure; a distinct timeout error kind does not exist. -/
theorem c5_timeout_not_distinct :
    fetchJson HttpOutcome.timeoutAbort = fetchJson HttpOutcome.transportError ∧
    fetchJson HttpOutcome.timeoutAbort = Except.error "transit_api_unavailable" :=
  ⟨rfl, rfl⟩

theorem leadsWith_append (l l' : List Char) : leadsWith l (l ++ l') = true := by
  induction l with
  | nil => rfl
  | cons a t ih => simp [leadsWith, ih]

theorem append_ne_of_not_leadsWith {p : String} {t : String} {q : String}
    (h : leadsWith p.data q.data = false) : p ++ t ≠ q := by
  intro he
  have hd := congrArg String.data he
  rw [String.data_append] at hd
  have h1 : leadsWith p.data (p.data ++ t.data) = true := leadsWith_append _ _
  rw [hd, h] at h1
  exact Bool.noConfusion h1

/-- C5 amended: fetchJson distinguishes exactly three failure kinds by
error message: transit_api_error_ followed by the status on a non-2xx
response, transit_api_invalid_payload when the JSON body is not an
object, and transit_api_unavailable for everything else — the timeout
abort, an unparsable body and any other transport failure all collapse
into the third kind and are not distinguishable from one another. -/
theorem c5_error_taxonomy (status : Nat) (body : Option Json) :
    fetchJson HttpOutcome.timeoutAbort = Except.error "transit_api_unavailable" ∧
    fetchJson HttpOutcome.transportError = Except.error "transit_api_unavailable" ∧
    (¬(200 ≤ status ∧ status < 300) →
      fetchJson (HttpOutcome.response status body) =
        Except.error ("transit_api_error_" ++ toString status)) ∧
    (200 ≤ status ∧ status < 300 →
      fetchJson (HttpOutcome.response status none) =
        Except.error "transit_api_unavailable") ∧
    (∀ b : Json, 200 ≤ status ∧ status < 300 → isObject b = false →
      fetchJson (HttpOutcome.response status (some b)) =
        Except.error "transit_api_invalid_payload") ∧
    (∀ b : Json, 200 ≤ status ∧ status < 300 → isObject b = true →
      fetchJson (HttpOutcome.response status (some b)) = Except.ok b) ∧
    ("transit_api_invalid_payload" ≠ "transit_api_unavailable") ∧
    (∀ st2 : Nat, "transit_api_error_" ++ toString st2 ≠ "transit_api_unavailable") ∧
    (∀ st2 : Nat, "transit_api_error_" ++ toString st2 ≠ "transit_api_invalid_payload") := by
  refine ⟨rfl, rfl, ?_, ?_, ?_, ?_, by decide, ?_, ?_⟩
  · intro h
    cases body with
    | none => simp [fetchJson, h]
    | some b => simp [fetchJson, h]
  · intro h
    simp [fetchJson, h]
  · intro b h hb
    simp [fetchJson, h, hb]
  · intro b h hb
    simp [fetchJson, h, hb]
  · intro st2
    exact append_ne_of_not_leadsWith (by decide)
  · intro st2
    exact append_ne_of_not_leadsWith (by decide)

theorem mapStop_eq_none {raw : Json} (h : safeInt (jget raw "id") = none) :
    mapStop raw = none := by
  unfold mapStop
  split
  · rw [h]
  · rfl

theorem mapStop_fields {raw : Json} {s : StopSummary} (hm : mapStop raw = some s) :
    s.name = (match jget raw "nombre" with
      | Json.null => "Parada " ++ toString s.id
      | v => jsToString v) ∧
    s.latitude = (safeFloat (jget raw "posy")).getD 0 ∧
    s.longitude = (safeFloat (jget raw "posx")).getD 0 ∧
    s.lines = (asArray (jget raw "enlaces")).filterMap safeInt := by
  unfold mapStop at hm
  split at hm
  · cases hid : safeInt (jget raw "id") with
    | none =>
      rw [hid] at hm
      exact Option.noConfusion hm
    | some stopId =>
      rw [hid] at hm
      have he := Option.some.inj hm
      subst he
      exact ⟨rfl, rfl, rfl, rfl⟩
  · exact Option.noConfusion hm

theorem parseLineStep_skip {raw : Json} (h : safeInt (jget raw "id") = none)
    (names : List String) (acc : List (Int × LineMeta) × List Int) :
    parseLineStep names acc raw = acc := by
  unfold parseLineStep
  split
  · rw [h]
  · rfl

/-- C6 amended: the normalizers are total and drop only the offending
record: an entry whose id does not parse is skipped with all siblings
kept in order; a kept stop defaults its name to the synthetic
"Parada id" only when nombre is null or absent, while any other
non-string nombre is stringified; unparsable coordinates default to 0;
non-numeric line-list entries are dropped. -/
theorem c6_normalizer_tolerant (pre post : List Json) (raw : Json)
    (names : List String) (s : StopSummary) :
    (safeInt (jget raw "id") = none →
      parseStops (pre ++ raw :: post) = parseStops (pre ++ post)) ∧
    (mapStop raw = some s →
      parseStops (pre ++ raw :: post) = parseStops pre ++ s :: parseStops post) ∧
    (safeInt (jget raw "id") = none →
      parseLineInfo names (pre ++ raw :: post) = parseLineInfo names (pre ++ post)) ∧
    (mapStop raw = some s → jget raw "nombre" = Json.null →
      s.name = "Parada " ++ toString s.id) ∧
    (∀ v : Json, mapStop raw = some s → jget raw "nombre" = v → v ≠ Json.null →
      s.name = jsToString v) ∧
    (mapStop raw = some s → safeFloat (jget raw "posy") = none → s.latitude = 0) ∧
    (mapStop raw = some s → safeFloat (jget raw "posx") = none → s.longitude = 0) ∧
    (mapStop raw = some s → s.lines = (asArray (jget raw "enlaces")).filterMap safeInt) := by
  refine ⟨?_, ?_, ?_, ?_, ?_, ?_, ?_, ?_⟩
  · intro h
    simp [parseStops, List.filterMap_append, List.filterMap_cons, mapStop_eq_none h]
  · intro h
    simp [parseStops, List.filterMap_append, List.filterMap_cons, h]
  · intro h
    unfold parseLineInfo
    rw [List.foldl_append, List.foldl_append, List.foldl_cons, parseLineStep_skip h]
  · intro hm hn
    have h1 := (mapStop_fields hm).1
    rw [hn] at h1
    exact h1
  · intro v hm hv hne
    have h1 := (mapStop_fields hm).1
    rw [hv] at h1
    cases v with
    | null => exact absurd rfl hne
    | bool b => exact h1
    | num q => exact h1
    | str t => exact h1
    | arr l => exact h1
    | obj f => exact h1
  · intro hm hp
    have h2 := (mapStop_fields hm).2.1
    rw [hp] at h2
    exact h2
  · intro hm hp
    have h2 := (mapStop_fields hm).2.2.1
    rw [hp] at h2
    exact h2
  · intro hm
    exact (mapStop_fields hm).2.2.2

/-- C6 counterexample: a stop whose nombre is the number 7 is kept with
name "7" -- the JS stringification -- not with the synthetic name
containing the id; so a non-string name does not default to the
synthetic name, only a null or absent one does. -/
theorem c6_nonstring_name_not_synthetic :
    (mapStop numericNameStop).map (fun s => s.name) = some "7" ∧
    ("7" : String) ≠ "Parada 1" ∧
    containsSeq "7".data "1".data = false := by
  refine ⟨rfl, by decide, by decide⟩

theorem parseLineStep_snd_nil (acc : List (Int × LineMeta) × List Int) (raw : Json) :
    (parseLineStep [] acc raw).2 = acc.2 := by
  unfold parseLineStep
  split
  · cases safeInt (jget raw "id") with
    | none => rfl
    | some lineId => rfl
  · rfl

theorem parseLineInfo_nil_ids (raws : List Json) : (parseLineInfo [] raws).2 = [] := by
  unfold parseLineInfo
  have haux : ∀ (l : List Json) (acc : List (Int × LineMeta) × List Int),
      (l.foldl (parseLineStep []) acc).2 = acc.2 := by
    intro l
    induction l with
    | nil => intro acc; rfl
    | cons raw t ih =>
      intro acc
      rw [List.foldl_cons, ih, parseLineStep_snd_nil]
  exact haux raws ([], [])

/-- C7: with an empty configured token list the resolved InterestSet is
empty -- the unfiltered sentinel: the stop listing returns every cached
stop with its line list untouched (a permutation of the cached list),
and the arrivals interest test accepts every line. -/
theorem c7_empty_tokens_unfiltered (raws : List Json) (stops : List StopSummary)
    (ids0 : List Int) (lineId : Int) (lineMeta : Option LineMeta) :
    (parseLineInfo [] raws).2 = [] ∧
    (filterInterestStops ((parseLineInfo [] raws).2) stops).Perm stops ∧
    isInterestLine [] ids0 lineId lineMeta = true := by
  have hids := parseLineInfo_nil_ids raws
  refine ⟨hids, ?_, rfl⟩
  rw [hids]
  exact List.perm_insertionSort nameLe stops

theorem parseArrivalLine_buses_sorted {names : List String} {ids : List Int}
    {info : List (Int × LineMeta)} {raw : Json} {l : LineArrivals}
    (h : parseArrivalLine names ids info raw = some l) : l.buses.Pairwise busLe := by
  simp only [parseArrivalLine] at h
  split at h
  · split at h
    · exact Option.noConfusion h
    · split at h
      · have he := Option.some.inj h
        rw [← he]
        exact List.sorted_insertionSort busLe _
      · exact Option.noConfusion h
  · exact Option.noConfusion h

theorem parseArrivalLine_interest {names : List String} {ids : List Int}
    {info : List (Int × LineMeta)} {raw : Json} {l : LineArrivals}
    (h : parseArrivalLine names ids info raw = some l) :
    isInterestLine names ids l.line_id (mapGet info l.line_id) = true := by
  simp only [parseArrivalLine] at h
  split at h
  · split at h
    · exact Option.noConfusion h
    · rename_i lineId hline
      split at h
      · rename_i hint
        have he := Option.some.inj h
        rw [← he]
        exact hint
      · exact Option.noConfusion h
  · exact Option.noConfusion h

/-- C8 counterexample: line 7 has no buses, line 3 has one bus with a
null eta; both get the sort key MAX_SAFE_INTEGER, the stable sort keeps
the input order, and the busless line 7 stays before line 3 -- so a line
with no buses does not sort after every line with at least one bus. -/
theorem c8_no_bus_line_not_last :
    ((getArrivals [] [] [(99, lineMetaW)] 1 noBusesFirstPayload).lines.map
        (fun l => l.line_id)) = [7, 3] ∧
    ((getArrivals [] [] [(99, lineMetaW)] 1 noBusesFirstPayload).lines.map
        (fun l => l.buses.length)) = [0, 1] :=
  ⟨rfl, rfl⟩

/-- C8 amended: in every arrivals response each line's buses are sorted
ascending by toSortEta (null mapping to MAX_SAFE_INTEGER, hence after
every smaller real eta; the example etas [5, null, 1, 3] come out
[1, 3, 5, null]) and the lines are sorted ascending by the first bus's
key, a busless line being keyed MAX_SAFE_INTEGER: it sorts after every
line with a smaller key, but it ties with -- and by stability can
precede -- a line whose soonest bus has a null eta. -/
theorem c8_arrivals_sorted (names : List String) (ids : List Int)
    (info : List (Int × LineMeta)) (sid : Int) (payload : Json) :
    (∀ l ∈ (getArrivals names ids info sid payload).lines, l.buses.Pairwise busLe) ∧
    (getArrivals names ids info sid payload).lines.Pairwise lineLe ∧
    ((parseArrivalLine [] [] [] etaExampleLineJson).map
        (fun l => l.buses.map (fun b => b.eta_minutes))) =
      some [some 1, some 3, some 5, none] := by
  refine ⟨?_, ?_, rfl⟩
  · intro l hl
    have hl2 : l ∈ (asArray (optGet (asObject (jget payload "buses")) "lineas")).filterMap
        (parseArrivalLine names ids info) := (List.mem_insertionSort lineLe).mp hl
    rcases List.mem_filterMap.mp hl2 with ⟨raw, _, hsome⟩
    exact parseArrivalLine_buses_sorted hsome
  · exact List.sorted_insertionSort lineLe _

theorem isInterestLine_false_of (names : List String) (ids : List Int) (lineId : Int)
    (m? : Option LineMeta) (hn : names ≠ []) (hi : ids = [])
    (h1 : names.contains (jsToLower (toString lineId)) = false)
    (h2 : ∀ m : LineMeta, m? = some m → names.contains m.nameLower = false) :
    isInterestLine names ids lineId m? = false := by
  subst hi
  have hne : names.isEmpty = false := by
    cases names with
    | nil => exact absurd rfl hn
    | cons a t => rfl
  have hc0 : ([] : List Int).contains lineId = false := rfl
  simp only [isInterestLine, hne, hc0, h1, Bool.false_eq_true, if_false]
  cases m? with
  | none => rfl
  | some m => exact h2 m rfl

/-- C9: the catalog path tests the resolved interest-id set for
emptiness while the arrivals path tests the configured token set; with
tokens configured but matching nothing in the catalog (nonempty names,
empty ids) the stop listing is unfiltered -- a permutation of the cache
with untouched line lists -- and the stop lookup returns the stop
unfiltered, while getArrivals still excludes every line whose id string
and catalog name match no token. -/
theorem c9_sentinel_mismatch (names : List String) (ids : List Int)
    (stops : List StopSummary) (stopId : Int) (info : List (Int × LineMeta))
    (payload : Json) (sid lineId : Int) (hn : names ≠ []) (hi : ids = []) :
    (filterInterestStops ids stops).Perm stops ∧
    getStop ids stops stopId = stops.find? (fun item => item.id == stopId) ∧
    (names.contains (jsToLower (toString lineId)) = false →
      (∀ m : LineMeta, mapGet info lineId = some m → names.contains m.nameLower = false) →
      ∀ l ∈ (getArrivals names ids info sid payload).lines, l.line_id ≠ lineId) := by
  subst hi
  refine ⟨List.perm_insertionSort nameLe stops, ?_, ?_⟩
  · unfold getStop
    cases hf : stops.find? (fun item => item.id == stopId) with
    | none => rfl
    | some a => rfl
  · intro h1 h2 l hl he
    have hl2 : l ∈ (asArray (optGet (asObject (jget payload "buses")) "lineas")).filterMap
        (parseArrivalLine names [] info) := (List.mem_insertionSort lineLe).mp hl
    rcases List.mem_filterMap.mp hl2 with ⟨raw, _, hsome⟩
    have hint := parseArrivalLine_interest hsome
    rw [he] at hint
    rw [isInterestLine_false_of names [] lineId (mapGet info lineId) hn rfl h1 h2] at hint
    exact Bool.noConfusion hint

/-- C9 witness: tokens ["zz"], empty resolved id set, one cached stop. -/
theorem c9_sentinel_mismatch_witness :
    (filterInterestStops [] [stopNoInterest]).Perm [stopNoInterest] :=
  (c9_sentinel_mismatch ["zz"] [] [stopNoInterest] 9 [] Json.null 1 7 (by decide) rfl).1

theorem applyInterest_nonempty {ids : List Int} (hb : ids.isEmpty = false)
    (s0 : StopSummary) :
    applyInterestToStop ids s0 =
      { s0 with lines := s0.lines.filter (fun x => ids.contains x) } := by
  unfold applyInterestToStop
  rw [hb]
  simp

/-- C10: with a nonempty resolved interest-id set, every stop returned
by the search path has a nonempty line list included in the id set --
stops whose filtered list would be empty are omitted -- whereas the
single-stop lookup still returns such a stop with its line list
filtered down to empty instead of reporting not-found. -/
theorem c10_lookup_vs_search (ids : List Int) (stops : List StopSummary)
    (stopId : Int) (stop : StopSummary) (hne : ids ≠ []) :
    (∀ s ∈ filterInterestStops ids stops,
        s.lines ≠ [] ∧ ∀ l ∈ s.lines, ids.contains l = true) ∧
    (stops.find? (fun item => item.id == stopId) = some stop →
      stop.lines.filter (fun l => ids.contains l) = [] →
      getStop ids stops stopId = some { stop with lines := [] }) := by
  have hb : ids.isEmpty = false := by
    cases ids with
    | nil => exact absurd rfl hne
    | cons a t => rfl
  constructor
  · intro s hs
    have hfs : filterInterestStops ids stops =
        sortByNameEs ((stops.map (applyInterestToStop ids)).filter
          (fun s => !s.lines.isEmpty)) := by
      unfold filterInterestStops
      rw [hb]
      simp
    rw [hfs] at hs
    have hs1 := (List.mem_insertionSort nameLe).mp hs
    rcases List.mem_filter.mp hs1 with ⟨hmem, hnes⟩
    rcases List.mem_map.mp hmem with ⟨s0, _, rfl⟩
    have hlines : (applyInterestToStop ids s0).lines =
        s0.lines.filter (fun x => ids.contains x) := by
      rw [applyInterest_nonempty hb s0]
    have hnes' : (applyInterestToStop ids s0).lines.isEmpty = false := by
      simpa using hnes
    constructor
    · intro h0
      rw [h0] at hnes'
      simp at hnes'
    · intro l hl
      rw [hlines] at hl
      exact (List.mem_filter.mp hl).2
  · intro hf hfl
    unfold getStop
    rw [hf]
    show some (applyInterestToStop ids stop) = some { stop with lines := [] }
    rw [applyInterest_nonempty hb stop, hfl]

/-- C10 witness: interest ids [1], a stop with only line 2: the lookup
returns it with an empty line list. -/
theorem c10_lookup_vs_search_witness :
    getStop [1] [stopNoInterest] 9 = some { stopNoInterest with lines := [] } :=
  (c10_lookup_vs_search [1] [stopNoInterest] 9 stopNoInterest (by decide)).2 rfl rfl

end BusesCoruna
